import Mathlib

/-!
Verification development for the nashville-nsp acoustic-panel pipeline.

The definitions below are a shallow embedding of the procedural
layout/compositing pipeline in `src/server/routes.ts` (the first of the two
concatenated versions in that file, lines 1-514): the wall-analysis parse and
repair block of `processDesign` (lines 214-255), the wall-bounds validation
(lines 262-290), the pixel mapping and clamping (lines 321-350), the shadow
and panel overlay construction (lines 352-445), the compositing and status
handling (lines 447-471), and `createDefaultLayout` (lines 475-514).

JavaScript numbers are modelled as rationals (`ℚ`); pixel coordinates, which
the source always produces through `Math.round`, as integers (`ℤ`).
Raw JSON fields that may be absent are modelled as `Option`; the modelled
domain covers raw analyses whose `wallBounds` object, when present, carries
four numeric fields (field-level junk inside `wallBounds` turns the later
arithmetic into `NaN` in JavaScript and is outside this embedding's domain).

The wall-feet panel-set selector and the `WallEstimate` parser appear only in
the specification's final pipeline version, which is not among the source
files; they are modelled from the spec where marked.
-/

namespace NSP

/-- JavaScript `Math.round`: round half toward positive infinity. -/
def jround (q : ℚ) : ℤ := ⌊q + 1/2⌋

/-- JavaScript `Number(v) || d`: an absent or non-numeric value (`none`)
and the number `0` are falsy and give the default. -/
def numOr (v : Option ℚ) (d : ℚ) : ℚ :=
  match v with
  | none => d
  | some q => if q = 0 then d else q

/-- `Math.max(lo, Math.min(hi, v))`, the clamp idiom used throughout. -/
def jclamp (lo hi v : ℚ) : ℚ := max lo (min hi v)

/-- Lighting directions recognised at routes.ts lines 295-308; any other
string behaves like `above` there, so `above` also stands for unknown. -/
inductive Lighting
  | left
  | right
  | above
  | diffuse
deriving DecidableEq, Repr

/-- A present `wallBounds` object with numeric fields (routes.ts line 206). -/
structure RawBounds where
  x : ℚ
  y : ℚ
  width : ℚ
  height : ℚ
deriving DecidableEq, Repr

/-- One entry of the raw `panels` array; `none` fields are absent or
non-numeric (`Number(...)` yields `NaN`, falsy). -/
structure RawPanel where
  x : Option ℚ
  y : Option ℚ
  width : Option ℚ
  height : Option ℚ
deriving DecidableEq, Repr

/-- The JSON object recovered from the vision response text
(routes.ts lines 204-217). -/
structure RawAnalysis where
  panelCount : Option ℚ
  wallBounds : Option RawBounds
  panels : Option (List RawPanel)
  lightingDirection : Option Lighting
deriving DecidableEq, Repr

/-- `PanelPosition` (routes.ts lines 122-127): percentages of the image. -/
structure PanelPosition where
  x : ℚ
  y : ℚ
  width : ℚ
  height : ℚ
deriving DecidableEq, Repr

/-- The analysis record after the parse-and-repair block. -/
structure LayoutAnalysis where
  panelCount : ℕ
  wallBounds : Option RawBounds
  panels : List PanelPosition
  lightingDirection : Option Lighting
deriving DecidableEq, Repr

/-- `createDefaultLayout` (routes.ts lines 475-514). -/
def createDefaultLayout (count : ℕ) : LayoutAnalysis :=
  let panels : List PanelPosition :=
    if count = 3 then
      [⟨35, 40, 8, 16⟩, ⟨50, 45, 10, 10⟩, ⟨65, 42, 9, 12⟩]
    else if count = 5 then
      [⟨30, 35, 8, 18⟩, ⟨42, 45, 9, 9⟩, ⟨55, 38, 10, 14⟩,
       ⟨67, 48, 8, 12⟩, ⟨78, 40, 7, 16⟩]
    else
      [⟨20, 30, 7, 14⟩, ⟨30, 45, 8, 8⟩, ⟨38, 32, 6, 12⟩,
       ⟨48, 50, 9, 10⟩, ⟨50, 35, 7, 16⟩, ⟨60, 42, 8, 8⟩,
       ⟨68, 30, 6, 14⟩, ⟨72, 48, 7, 10⟩, ⟨80, 36, 8, 12⟩,
       ⟨85, 50, 6, 8⟩]
  { panelCount := count
    wallBounds := some ⟨15, 20, 70, 60⟩
    panels := panels
    lightingDirection := some .above }

/-- Panel-count coercion (routes.ts lines 219-227):
`Number(analysis.panelCount) || 5`, then thresholds into 3, 5 or 10. -/
def coercePanelCount (pc : Option ℚ) : ℕ :=
  let rawCount := numOr pc 5
  if rawCount ≤ 3 then 3 else if rawCount ≤ 7 then 5 else 10

/-- Per-panel field clamping (routes.ts lines 230-235). -/
def clampRawPanel (p : RawPanel) : PanelPosition :=
  { x := jclamp 5 95 (numOr p.x 50)
    y := jclamp 5 95 (numOr p.y 50)
    width := jclamp 3 20 (numOr p.width 8)
    height := jclamp 5 30 (numOr p.height 12) }

/-- The `while` loop of routes.ts lines 244-250, which tops up a short panel
array from the default layout. Its guard adds nothing once the default layout
is exhausted, so in that situation the JavaScript loop never terminates;
that divergence is modelled by the `none` result. -/
def fillLoop (ps : List PanelPosition) (count : ℕ) (dps : List PanelPosition) :
    Option (List PanelPosition) :=
  if _hlt : ps.length < count then
    if h : ps.length < dps.length then
      fillLoop (ps ++ [dps.get ⟨ps.length, h⟩]) count dps
    else
      none
  else
    some ps
termination_by count - ps.length
decreasing_by simp; omega

/-- The parse-and-repair block (routes.ts lines 212-255). `none` input models
the inner `catch`: no JSON object found, malformed JSON, or a wrong-typed
`panels` field making `.map` throw; all of those reach line 254 and use
`createDefaultLayout(5)`. -/
def normalizeAnalysis : Option RawAnalysis → Option LayoutAnalysis
  | none => some (createDefaultLayout 5)
  | some r =>
    let count := coercePanelCount r.panelCount
    let ps := (r.panels.getD []).map clampRawPanel
    let filled : Option (List PanelPosition) :=
      if ps.length > count then some (ps.take count)
      else if ps.length < count then fillLoop ps count (createDefaultLayout count).panels
      else some ps
    filled.map fun panels =>
      { panelCount := count
        wallBounds := r.wallBounds
        panels := panels
        lightingDirection := r.lightingDirection }

/-- Wall-bounds validation (routes.ts lines 262-290): clamp each panel centre
into the wall rectangle, falling back to the default layout if panels were
lost (the loop never drops panels, but the source keeps the check). -/
def validatePanels (a : LayoutAnalysis) : List PanelPosition :=
  let wb := a.wallBounds.getD ⟨10, 10, 80, 80⟩
  let validated := a.panels.map fun p =>
    let wallLeft := wb.x
    let wallRight := wb.x + wb.width
    let wallTop := wb.y
    let wallBottom := wb.y + wb.height
    let clampedX := max (wallLeft + p.width / 2) (min (wallRight - p.width / 2) p.x)
    let clampedY := max (wallTop + p.height / 2) (min (wallBottom - p.height / 2) p.y)
    ({ x := clampedX, y := clampedY, width := p.width, height := p.height } : PanelPosition)
  if validated.length < a.panelCount then (createDefaultLayout a.panelCount).panels
  else validated

/-- An integer rectangle in image pixel space. -/
structure IRect where
  x : ℤ
  y : ℤ
  w : ℤ
  h : ℤ
deriving DecidableEq, Repr

/-- The four sequential edge clamps of routes.ts lines 331-344; the source
repeats the identical four-step pattern for the shadow at lines 365-378. -/
def clampRectToImage (r : IRect) (W H : ℤ) : IRect :=
  let xw := if r.x < 0 then ((0 : ℤ), r.w + r.x) else (r.x, r.w)
  let yh := if r.y < 0 then ((0 : ℤ), r.h + r.y) else (r.y, r.h)
  let w := if xw.1 + xw.2 > W then W - xw.1 else xw.2
  let h := if yh.1 + yh.2 > H then H - yh.1 else yh.2
  ⟨xw.1, yh.1, w, h⟩

/-- Pixel rectangle of a panel before clamping (routes.ts lines 325-328). -/
def pixelRectOf (p : PanelPosition) (W H : ℤ) : IRect :=
  let w := jround (p.width / 100 * W)
  let h := jround (p.height / 100 * H)
  { x := jround (p.x / 100 * W - w / 2)
    y := jround (p.y / 100 * H - h / 2)
    w := w
    h := h }

/-- The clamped pixel rectangle a panel would occupy. -/
def panelPixelRect (p : PanelPosition) (W H : ℤ) : IRect :=
  clampRectToImage (pixelRectOf p W H) W H

/-- The minimum-size filter of routes.ts lines 347-350: a panel is kept only
if its post-clamp width and height are both at least 10 pixels. -/
def survivesClamp (p : PanelPosition) (W H : ℤ) : Prop :=
  ¬((panelPixelRect p W H).w < 10 ∨ (panelPixelRect p W H).h < 10)

instance (p : PanelPosition) (W H : ℤ) : Decidable (survivesClamp p W H) :=
  instDecidableNot

/-- Shadow offset by lighting direction (routes.ts lines 296-308); the
default `(0, 4)` covers `above` and any unrecognised string. -/
def shadowOffset : Lighting → ℤ × ℤ
  | .left => (4, 2)
  | .right => (-4, 2)
  | .diffuse => (2, 2)
  | .above => (0, 4)

/-- The clamped shadow rectangle of a panel (routes.ts lines 352-378). -/
def shadowPixelRect (p : PanelPosition) (dir : Lighting) (W H : ℤ) : IRect :=
  let r := panelPixelRect p W H
  let sf : ℚ := (min W H : ℤ) / 1000
  let off := shadowOffset dir
  let scaledX := jround (off.1 * sf * 2)
  let scaledY := jround (off.2 * sf * 2)
  let blur := max 3 (jround (6 * sf))
  clampRectToImage ⟨r.x + scaledX, r.y + scaledY, r.w + blur, r.h + blur⟩ W H

/-- A pixel colour with rational channels in `[0, 255]`. -/
structure RGBA where
  r : ℚ
  g : ℚ
  b : ℚ
  a : ℚ
deriving DecidableEq, Repr

/-- The cycling panel palette `panelColors[i % panelColors.length]`
(routes.ts lines 313-319 and 403). -/
def panelColor (i : ℕ) : RGBA :=
  match i % 5 with
  | 0 => ⟨35, 35, 40, 255⟩
  | 1 => ⟨45, 42, 48, 255⟩
  | 2 => ⟨30, 32, 35, 255⟩
  | 3 => ⟨50, 48, 52, 255⟩
  | _ => ⟨38, 36, 42, 255⟩

/-- The shadow layer's fill `rgba(0,0,0,60)` (routes.ts line 387). The blur
applied to this uniform buffer changes per-pixel alpha near the buffer edge
but cannot paint outside the buffer rectangle, which is all the region-level
claims depend on. The highlight strip and brightness modulation of
lines 417-438 likewise alter only pixels inside the panel rectangle, so the
panel layer is modelled by its fill colour. -/
def shadowColor : RGBA := ⟨0, 0, 0, 60⟩

/-- One overlay queued for `sharp.composite` (left, top, buffer size,
buffer fill). -/
structure Overlay where
  left : ℤ
  top : ℤ
  width : ℤ
  height : ℤ
  color : RGBA
deriving DecidableEq, Repr

/-- Overlays contributed by the panel at index `i` (routes.ts lines 321-445):
nothing when the clamped rectangle is under 10 px in either direction,
otherwise an optional shadow layer followed by the panel fill layer. -/
def overlaysForPanel (i : ℕ) (p : PanelPosition) (dir : Lighting) (W H : ℤ) :
    List Overlay :=
  let r := panelPixelRect p W H
  if r.w < 10 ∨ r.h < 10 then []
  else
    let s := shadowPixelRect p dir W H
    (if 5 < s.w ∧ 5 < s.h then [⟨s.x, s.y, s.w, s.h, shadowColor⟩] else []) ++
      [⟨r.x, r.y, r.w, r.h, panelColor i⟩]

/-- The full overlay list in panel order, indexed as the `for` loop of
routes.ts line 321 indexes `analysis.panels`. -/
def buildOverlays (dir : Lighting) (W H : ℤ) : ℕ → List PanelPosition → List Overlay
  | _, [] => []
  | i, p :: ps => overlaysForPanel i p dir W H ++ buildOverlays dir W H (i + 1) ps

/-- Membership of a pixel in a rectangle. -/
def rectContains (r : IRect) (x y : ℤ) : Bool :=
  decide (r.x ≤ x ∧ x < r.x + r.w ∧ r.y ≤ y ∧ y < r.y + r.h)

/-- Membership of a pixel in an overlay's rectangle. -/
def inOverlay (o : Overlay) (x y : ℤ) : Bool :=
  rectContains ⟨o.left, o.top, o.width, o.height⟩ x y

/-- Non-premultiplied `over` alpha blending with 8-bit-style alpha. -/
def blendOver (dst src : RGBA) : RGBA :=
  { r := (src.r * src.a + dst.r * (255 - src.a)) / 255
    g := (src.g * src.a + dst.g * (255 - src.a)) / 255
    b := (src.b * src.a + dst.b * (255 - src.a)) / 255
    a := src.a + dst.a * (255 - src.a) / 255 }

/-- An image as a pixel function. -/
def Image : Type := ℤ → ℤ → RGBA

/-- `sharp` refuses an overlay placed outside the base image. -/
def overlayInBounds (o : Overlay) (W H : ℤ) : Bool :=
  decide (0 ≤ o.left ∧ o.left + o.width ≤ W ∧ 0 ≤ o.top ∧ o.top + o.height ≤ H)

/-- `sharp(originalBuffer).composite(panelOverlays)` (routes.ts lines
454-457): layers are applied in list order; a pixel outside an overlay's
rectangle is untouched by that overlay. An out-of-bounds overlay makes the
call throw. -/
def compositeImage (base : Image) (ovs : List Overlay) (W H : ℤ) :
    Except Unit Image :=
  if ovs.all (overlayInBounds · W H) then
    .ok fun x y =>
      ovs.foldl (fun c o => if inOverlay o x y then blendOver c o.color else c)
        (base x y)
  else
    .error ()

/-- Overlay construction plus the zero-overlay guard of routes.ts lines
447-449, followed by the composite call. -/
def compositeStage (panels : List PanelPosition) (dir : Lighting) (W H : ℤ)
    (base : Image) : Except Unit Image :=
  let ovs := buildOverlays dir W H 0 panels
  if ovs.isEmpty then .error ()
  else compositeImage base ovs W H

/-- Job status values of the design record. -/
inductive Status
  | processing
  | completed
  | failed
deriving DecidableEq, Repr

/-- One `storage.updateDesignStatus` call: the status written and the result
image persisted with it, if any. -/
structure Write where
  status : Status
  image : Option Image

/-- The per-job environment: decoded image dimensions (after the `|| 1024`
defaults of routes.ts lines 141-142), the outcome of decoding the uploaded
buffer, and the outcome of the vision call (`error` models a thrown API
call; `ok none` a response without usable JSON). -/
structure Env where
  origWidth : ℤ
  origHeight : ℤ
  decode : Except Unit Image
  vision : Except Unit (Option RawAnalysis)

/-- The body of the `try` block of `processDesign` (routes.ts lines 131-463)
after the `processing` write, producing the composited image or the error
that reaches the `catch`. `none` marks divergence of the fill loop. -/
def runPipeline (env : Env) : Option (Except Unit Image) :=
  match env.decode with
  | .error e => some (.error e)
  | .ok base =>
    match env.vision with
    | .error e => some (.error e)
    | .ok raw =>
      match normalizeAnalysis raw with
      | none => none
      | some analysis =>
        let vpanels := validatePanels analysis
        some (compositeStage vpanels (analysis.lightingDirection.getD .above)
          env.origWidth env.origHeight base)

/-- `processDesign` (routes.ts lines 130-472) as its sequence of status
writes: `processing` first, then `completed` with the composited image, or
`failed` with no image when anything in the `try` block throws; the `catch`
at lines 465-471 converts every pipeline exception into the `failed` write.
The job store is the external collaborator of spec section 6 and its calls
are modelled as succeeding. -/
def processDesign (env : Env) : Option (List Write) :=
  (runPipeline env).map fun r =>
    match r with
    | .ok img => [⟨.processing, none⟩, ⟨.completed, some img⟩]
    | .error _ => [⟨.processing, none⟩, ⟨.failed, none⟩]

/-- The `panelSetKey` selection of routes.ts line 258. -/
inductive PanelSetKey
  | small
  | medium
  | large
deriving DecidableEq, Repr

/-- routes.ts line 258: count 3 picks the small set, 10 the large, else the
medium. -/
def panelSetKey (count : ℕ) : PanelSetKey :=
  if count = 3 then .small else if count = 10 then .large else .medium

/-- The `count` fields of PANEL_SETS (routes.ts lines 14-33). -/
def panelSetCount : PanelSetKey → ℕ
  | .small => 3
  | .medium => 5
  | .large => 10

/-- One catalog tier's fit thresholds, for the wall-feet selector that exists
only in the spec's final pipeline version. -/
structure CatalogEntry where
  id : ℕ
  minWallWidthFt : ℚ
  maxPanelHeightFt : ℚ
deriving DecidableEq, Repr

/-- Modelled from the spec: the panel catalog thresholds (sections 4.1 and
8); the catalog with `minWallWidthFt`/`maxPanelHeightFt` is missing from
src/, whose surviving pipeline versions pick a set from the AI's
`panelCount` instead (routes.ts lines 219-227, 258-259). Values follow the
spec's words: the 3-panel minimum width of 5 ft (section 4.1) with 2 ft
maximum panel height (catalog descriptions), the 5-panel thresholds
`width >= 8` and `maxPanelHeightFt = 4` (section 8), and a 10-panel minimum
width of 15 ft derived by the section 4.1 rule (about 10 ft of panels plus
4.5 ft of gaps plus margin) with 2 ft maximum panel height. Listed in
descending panel count, the iteration order of section 4.1. -/
def panelCatalog : List CatalogEntry := [⟨10, 15, 2⟩, ⟨5, 8, 4⟩, ⟨3, 5, 2⟩]

/-- Modelled from the spec: a set fits when `minWallWidthFt <= wallWidthFt`
and `wallHeightFt >= maxPanelHeightFt + 2` (section 4.1). -/
def fitsSet (e : CatalogEntry) (w h : ℚ) : Bool :=
  decide (e.minWallWidthFt ≤ w ∧ e.maxPanelHeightFt + 2 ≤ h)

/-- Modelled from the spec: `selectBestPanelSet` (section 4.1), missing from
src/ — iterate candidates in descending panel count and return the first
that fits, or the smallest set when none does. -/
def selectBestPanelSet (w h : ℚ) : ℕ :=
  match panelCatalog.find? (fitsSet · w h) with
  | some e => e.id
  | none => 3

/-- The thresholds of the set with the given id are satisfied. -/
def setFits (id : ℕ) (w h : ℚ) : Prop :=
  ∃ e ∈ panelCatalog, e.id = id ∧ fitsSet e w h = true

/-- Wall bounds of a `WallEstimate`, percentages of the image. -/
structure WallBounds where
  x : ℚ
  y : ℚ
  width : ℚ
  height : ℚ
deriving DecidableEq, Repr

/-- Modelled from the spec: `WallEstimate` (section 3), the validated output
of the final version's wall-analysis parser, which is missing from src/
(the src parser of routes.ts lines 229-235 clamps panel rectangles and
carries no wall dimensions in feet). -/
structure WallEstimate where
  bounds : WallBounds
  widthFt : ℚ
  heightFt : ℚ
deriving DecidableEq, Repr

/-- The raw fields offered to the wall-estimate parser; `none` models an
absent or non-numeric field. -/
structure RawWallEstimate where
  boundsX : Option ℚ
  boundsY : Option ℚ
  boundsWidth : Option ℚ
  boundsHeight : Option ℚ
  widthFt : Option ℚ
  heightFt : Option ℚ
deriving DecidableEq, Repr

/-- Modelled from the spec: the component-level defaults of section 3 —
bounds `{15,15,70,70}`, `widthFt = 12`, `heightFt = 8`. -/
def defaultWallEstimate : WallEstimate := ⟨⟨15, 15, 70, 70⟩, 12, 8⟩

/-- Modelled from the spec: `parseWallAnalysis` (section 4.3), missing from
src/. A failed extraction or parse (`none`) yields the default estimate; a
present numeric field is clamped to its valid range (bounds position to
`[0,100]`, bounds size to `[20,100]`, `widthFt` to `[5,30]`, `heightFt` to
`[6,15]`); an absent or non-numeric field gets its default. -/
def parseWallAnalysis : Option RawWallEstimate → WallEstimate
  | none => defaultWallEstimate
  | some r =>
    { bounds :=
        { x := jclamp 0 100 (r.boundsX.getD 15)
          y := jclamp 0 100 (r.boundsY.getD 15)
          width := jclamp 20 100 (r.boundsWidth.getD 70)
          height := jclamp 20 100 (r.boundsHeight.getD 70) }
      widthFt := jclamp 5 30 (r.widthFt.getD 12)
      heightFt := jclamp 6 15 (r.heightFt.getD 8) }

/-! ## Basic lemmas -/

/-- Whatever the input rectangle, the four sequential edge clamps leave a
non-negative origin and far edges within the image. -/
theorem clampRect_bounds (r : IRect) (W H : ℤ) :
    0 ≤ (clampRectToImage r W H).x ∧ 0 ≤ (clampRectToImage r W H).y ∧
    (clampRectToImage r W H).x + (clampRectToImage r W H).w ≤ W ∧
    (clampRectToImage r W H).y + (clampRectToImage r W H).h ≤ H := by
  unfold clampRectToImage
  dsimp only
  split_ifs <;> dsimp only <;> omega

theorem clampRect_x_eq (r : IRect) (W H : ℤ) :
    (r.x < 0 → (clampRectToImage r W H).x = 0) ∧
    (0 ≤ r.x → (clampRectToImage r W H).x = r.x) := by
  unfold clampRectToImage
  dsimp only
  split_ifs <;> dsimp only <;> omega

theorem clampRect_y_eq (r : IRect) (W H : ℤ) :
    (r.y < 0 → (clampRectToImage r W H).y = 0) ∧
    (0 ≤ r.y → (clampRectToImage r W H).y = r.y) := by
  unfold clampRectToImage
  dsimp only
  split_ifs <;> dsimp only <;> omega

/-- Claim C5: the pixel-mapping clamp shrinks the derived rectangle from
whichever image edge is violated (a negative `x` is zeroed and absorbed into
the width, an overshooting right edge truncates the width, and symmetrically
for `y` and the height), so that every rectangle that passes the
minimum-size filter — the only ones ever composited — has non-negative
integer origin, positive size, and lies entirely within the
`imageWidth x imageHeight` bounds. -/
theorem composited_rect_invariant (r : IRect) (W H : ℤ)
    (hs : ¬((clampRectToImage r W H).w < 10 ∨ (clampRectToImage r W H).h < 10)) :
    0 ≤ (clampRectToImage r W H).x ∧ 0 ≤ (clampRectToImage r W H).y ∧
    0 < (clampRectToImage r W H).w ∧ 0 < (clampRectToImage r W H).h ∧
    (clampRectToImage r W H).x + (clampRectToImage r W H).w ≤ W ∧
    (clampRectToImage r W H).y + (clampRectToImage r W H).h ≤ H ∧
    (r.x < 0 → (clampRectToImage r W H).x = 0 ∧
      (clampRectToImage r W H).w ≤ r.w + r.x) ∧
    (r.y < 0 → (clampRectToImage r W H).y = 0 ∧
      (clampRectToImage r W H).h ≤ r.h + r.y) := by
  revert hs
  unfold clampRectToImage
  dsimp only
  split_ifs <;> dsimp only <;> omega

theorem composited_rect_invariant_witness :
    ¬(((clampRectToImage ⟨-5, 3, 50, 40⟩ 100 100).w < 10) ∨
      ((clampRectToImage ⟨-5, 3, 50, 40⟩ 100 100).h < 10)) ∧
    (0 ≤ (clampRectToImage ⟨-5, 3, 50, 40⟩ 100 100).x ∧
     0 ≤ (clampRectToImage ⟨-5, 3, 50, 40⟩ 100 100).y ∧
     0 < (clampRectToImage ⟨-5, 3, 50, 40⟩ 100 100).w ∧
     0 < (clampRectToImage ⟨-5, 3, 50, 40⟩ 100 100).h ∧
     (clampRectToImage ⟨-5, 3, 50, 40⟩ 100 100).x +
       (clampRectToImage ⟨-5, 3, 50, 40⟩ 100 100).w ≤ 100 ∧
     (clampRectToImage ⟨-5, 3, 50, 40⟩ 100 100).y +
       (clampRectToImage ⟨-5, 3, 50, 40⟩ 100 100).h ≤ 100 ∧
     ((-5 : ℤ) < 0 → (clampRectToImage ⟨-5, 3, 50, 40⟩ 100 100).x = 0 ∧
       (clampRectToImage ⟨-5, 3, 50, 40⟩ 100 100).w ≤ 50 + -5) ∧
     ((3 : ℤ) < 0 → (clampRectToImage ⟨-5, 3, 50, 40⟩ 100 100).y = 0 ∧
       (clampRectToImage ⟨-5, 3, 50, 40⟩ 100 100).h ≤ 40 + 3)) :=
  ⟨by decide, composited_rect_invariant ⟨-5, 3, 50, 40⟩ 100 100 (by decide)⟩

/-! ## The default layout and the fill loop -/

theorem createDefaultLayout_length (c : ℕ) (hc : c = 3 ∨ c = 5 ∨ c = 10) :
    (createDefaultLayout c).panels.length = c := by
  rcases hc with rfl | rfl | rfl <;> rfl

theorem fillLoop_total (ps : List PanelPosition) (count : ℕ)
    (dps : List PanelPosition) :
    ps.length ≤ count → count ≤ dps.length →
    ∃ res, fillLoop ps count dps = some res ∧ res.length = count := by
  induction ps, count, dps using fillLoop.induct with
  | case1 ps count dps hlt h ih =>
    intro h1 h2
    rw [fillLoop]
    simp only [dif_pos hlt, dif_pos h]
    exact ih (by simp; omega) h2
  | case2 ps count dps hlt h =>
    intro h1 h2
    omega
  | case3 ps count dps hlt =>
    intro h1 h2
    rw [fillLoop]
    simp only [dif_neg hlt]
    exact ⟨ps, rfl, by omega⟩

theorem fillLoop_stuck (ps dps : List PanelPosition) (count : ℕ)
    (hlt : ps.length < count) (hd : dps.length ≤ ps.length) :
    fillLoop ps count dps = none := by
  rw [fillLoop]
  simp only [dif_pos hlt]
  rw [dif_neg (by omega)]

theorem fillLoop_mem (ps : List PanelPosition) (count : ℕ)
    (dps : List PanelPosition) :
    ∀ res, fillLoop ps count dps = some res → ∀ p ∈ res, p ∈ ps ∨ p ∈ dps := by
  induction ps, count, dps using fillLoop.induct with
  | case1 ps count dps hlt h ih =>
    intro res hres p hp
    rw [fillLoop] at hres
    simp only [dif_pos hlt, dif_pos h] at hres
    rcases ih res hres p hp with hmem | hmem
    · rcases List.mem_append.1 hmem with h' | h'
      · exact .inl h'
      · exact .inr (by
          rcases List.mem_singleton.1 h' with rfl
          exact List.get_mem dps ps.length h)
    · exact .inr hmem
  | case2 ps count dps hlt h =>
    intro res hres
    rw [fillLoop] at hres
    simp [dif_pos hlt, dif_neg h] at hres
  | case3 ps count dps hlt =>
    intro res hres p hp
    rw [fillLoop] at hres
    simp only [dif_neg hlt, Option.some.injEq] at hres
    subst hres
    exact .inl hp

/-- Claim C10 (implicit): `createDefaultLayout` returns exactly `count`
panels for each catalog count, so the default-fill `while` loop of
routes.ts lines 244-250 always terminates with exactly `panelCount` panels;
had the default layout been shorter than `panelCount`, the loop's guard
would add nothing and the loop would never terminate (the `none` result). -/
theorem defaultLayout_fill_terminates :
    (∀ c : ℕ, c = 3 ∨ c = 5 ∨ c = 10 → (createDefaultLayout c).panels.length = c) ∧
    (∀ (ps : List PanelPosition) (c : ℕ), (c = 3 ∨ c = 5 ∨ c = 10) →
      ps.length ≤ c →
      ∃ res, fillLoop ps c (createDefaultLayout c).panels = some res ∧
        res.length = c) ∧
    (∀ (ps dps : List PanelPosition) (c : ℕ), ps.length < c →
      dps.length ≤ ps.length → fillLoop ps c dps = none) :=
  ⟨createDefaultLayout_length,
   fun ps c hc hle =>
     fillLoop_total ps c (createDefaultLayout c).panels hle
       (le_of_eq (createDefaultLayout_length c hc).symm),
   fun ps dps c hlt hd => fillLoop_stuck ps dps c hlt hd⟩

/-! ## The spec-modelled selector and parser -/

theorem setFits_cases (id : ℕ) (w h : ℚ) (hid : setFits id w h) :
    (id = 10 ∧ fitsSet ⟨10, 15, 2⟩ w h = true) ∨
    (id = 5 ∧ fitsSet ⟨5, 8, 4⟩ w h = true) ∨
    (id = 3 ∧ fitsSet ⟨3, 5, 2⟩ w h = true) := by
  obtain ⟨e, he, heq, hfit⟩ := hid
  simp only [panelCatalog, List.mem_cons, List.not_mem_nil, or_false] at he
  rcases he with rfl | rfl | rfl
  · exact .inl ⟨heq.symm, hfit⟩
  · exact .inr (.inl ⟨heq.symm, hfit⟩)
  · exact .inr (.inr ⟨heq.symm, hfit⟩)

/-- Claim C1 (spec-modelled): the selector iterates candidate sets in
descending panel count and returns the first whose
`minWallWidthFt <= wallWidthFt` and `wallHeightFt >= maxPanelHeightFt + 2`
hold, falling back to the smallest set; on every valid estimate
(`wallWidthFt` in `[5,30]`, `wallHeightFt` in `[6,15]`) the result is the
largest set whose thresholds are satisfied, and in particular
`selectBestPanelSet 20 10 = 10` and `selectBestPanelSet 6 8 = 3`. -/
theorem selectBestPanelSet_largest_fit (w h : ℚ)
    (hw1 : 5 ≤ w) (_hw2 : w ≤ 30) (hh1 : 6 ≤ h) (_hh2 : h ≤ 15) :
    (setFits (selectBestPanelSet w h) w h ∧
      ∀ id, setFits id w h → id ≤ selectBestPanelSet w h) ∧
    selectBestPanelSet 20 10 = 10 ∧ selectBestPanelSet 6 8 = 3 := by
  refine ⟨?_, by norm_num [selectBestPanelSet, panelCatalog, fitsSet, List.find?],
    by norm_num [selectBestPanelSet, panelCatalog, fitsSet, List.find?]⟩
  have h3 : fitsSet ⟨3, 5, 2⟩ w h = true := by
    simp only [fitsSet, decide_eq_true_eq]
    exact ⟨hw1, by linarith⟩
  by_cases h10 : fitsSet ⟨10, 15, 2⟩ w h = true
  · have hsel : selectBestPanelSet w h = 10 := by
      unfold selectBestPanelSet
      simp [panelCatalog, List.find?_cons, h10]
    rw [hsel]
    refine ⟨⟨⟨10, 15, 2⟩, by simp [panelCatalog], rfl, h10⟩, ?_⟩
    intro id hid
    rcases setFits_cases id w h hid with ⟨rfl, _⟩ | ⟨rfl, _⟩ | ⟨rfl, _⟩ <;> omega
  · have h10' : fitsSet ⟨10, 15, 2⟩ w h = false := by
      revert h10; cases fitsSet ⟨10, 15, 2⟩ w h <;> simp
    by_cases h5 : fitsSet ⟨5, 8, 4⟩ w h = true
    · have hsel : selectBestPanelSet w h = 5 := by
        unfold selectBestPanelSet
        simp [panelCatalog, List.find?_cons, h10', h5]
      rw [hsel]
      refine ⟨⟨⟨5, 8, 4⟩, by simp [panelCatalog], rfl, h5⟩, ?_⟩
      intro id hid
      rcases setFits_cases id w h hid with ⟨rfl, hf⟩ | ⟨rfl, _⟩ | ⟨rfl, _⟩
      · rw [hf] at h10'; cases h10'
      · omega
      · omega
    · have h5' : fitsSet ⟨5, 8, 4⟩ w h = false := by
        revert h5; cases fitsSet ⟨5, 8, 4⟩ w h <;> simp
      have hsel : selectBestPanelSet w h = 3 := by
        unfold selectBestPanelSet
        simp [panelCatalog, List.find?_cons, h10', h5', h3]
      rw [hsel]
      refine ⟨⟨⟨3, 5, 2⟩, by simp [panelCatalog], rfl, h3⟩, ?_⟩
      intro id hid
      rcases setFits_cases id w h hid with ⟨rfl, hf⟩ | ⟨rfl, hf⟩ | ⟨rfl, _⟩
      · rw [hf] at h10'; cases h10'
      · rw [hf] at h5'; cases h5'
      · omega

theorem selectBestPanelSet_largest_fit_witness :
    (setFits (selectBestPanelSet 12 8) 12 8 ∧
      ∀ id, setFits id 12 8 → id ≤ selectBestPanelSet 12 8) ∧
    selectBestPanelSet 20 10 = 10 ∧ selectBestPanelSet 6 8 = 3 :=
  selectBestPanelSet_largest_fit 12 8 (by norm_num) (by norm_num)
    (by norm_num) (by norm_num)

/-- Claim C2 (spec-modelled): each present-and-numeric raw field is clamped
to its documented range and each absent or non-numeric field receives its
component default; a failed parse yields the default `WallEstimate` exactly,
and an out-of-range `wallWidthFt` of 999 is clamped to 30. -/
theorem parseWallAnalysis_clamps_and_defaults :
    (∀ r : RawWallEstimate,
      (∀ v, r.boundsX = some v →
        (parseWallAnalysis (some r)).bounds.x = max 0 (min 100 v)) ∧
      (r.boundsX = none → (parseWallAnalysis (some r)).bounds.x = 15) ∧
      (∀ v, r.boundsY = some v →
        (parseWallAnalysis (some r)).bounds.y = max 0 (min 100 v)) ∧
      (r.boundsY = none → (parseWallAnalysis (some r)).bounds.y = 15) ∧
      (∀ v, r.boundsWidth = some v →
        (parseWallAnalysis (some r)).bounds.width = max 20 (min 100 v)) ∧
      (r.boundsWidth = none → (parseWallAnalysis (some r)).bounds.width = 70) ∧
      (∀ v, r.boundsHeight = some v →
        (parseWallAnalysis (some r)).bounds.height = max 20 (min 100 v)) ∧
      (r.boundsHeight = none →
        (parseWallAnalysis (some r)).bounds.height = 70) ∧
      (∀ v, r.widthFt = some v →
        (parseWallAnalysis (some r)).widthFt = max 5 (min 30 v)) ∧
      (r.widthFt = none → (parseWallAnalysis (some r)).widthFt = 12) ∧
      (∀ v, r.heightFt = some v →
        (parseWallAnalysis (some r)).heightFt = max 6 (min 15 v)) ∧
      (r.heightFt = none → (parseWallAnalysis (some r)).heightFt = 8)) ∧
    parseWallAnalysis none = defaultWallEstimate ∧
    (parseWallAnalysis
      (some ⟨none, none, none, none, some 999, none⟩)).widthFt = 30 := by
  refine ⟨fun r => ?_, rfl, by norm_num [parseWallAnalysis, jclamp, max_def, min_def]⟩
  obtain ⟨bx, byv, bw, bh, wf, hf⟩ := r
  refine ⟨?_, ?_, ?_, ?_, ?_, ?_, ?_, ?_, ?_, ?_, ?_, ?_⟩ <;>
    first
      | (intro v hv
         subst hv
         simp [parseWallAnalysis, jclamp])
      | (intro hv
         subst hv
         norm_num [parseWallAnalysis, jclamp, max_def, min_def])

/-- A concrete raw estimate exercising present, absent and out-of-range
fields. -/
def sampleRawEstimate : RawWallEstimate :=
  ⟨some 50, none, some 150, none, some 999, some 7⟩

theorem parseWallAnalysis_clamps_and_defaults_witness :
    (parseWallAnalysis (some sampleRawEstimate)).bounds.x =
        max 0 (min 100 50) ∧
    (parseWallAnalysis (some sampleRawEstimate)).bounds.y = 15 ∧
    (parseWallAnalysis (some sampleRawEstimate)).bounds.width =
        max 20 (min 100 150) ∧
    (parseWallAnalysis (some sampleRawEstimate)).widthFt =
        max 5 (min 30 999) :=
  ⟨(parseWallAnalysis_clamps_and_defaults.1 sampleRawEstimate).1 50 rfl,
   (parseWallAnalysis_clamps_and_defaults.1 sampleRawEstimate).2.2.2.1 rfl,
   (parseWallAnalysis_clamps_and_defaults.1 sampleRawEstimate).2.2.2.2.1 150 rfl,
   (parseWallAnalysis_clamps_and_defaults.1 sampleRawEstimate).2.2.2.2.2.2.2.2.1
     999 rfl⟩

theorem defaultLayout_fill_terminates_witness :
    (createDefaultLayout 5).panels.length = 5 ∧
    (∃ res, fillLoop [] 5 (createDefaultLayout 5).panels = some res ∧
      res.length = 5) ∧
    fillLoop [] 5 [] = none :=
  ⟨defaultLayout_fill_terminates.1 5 (.inr (.inl rfl)),
   defaultLayout_fill_terminates.2.1 [] 5 (.inr (.inl rfl)) (by simp),
   defaultLayout_fill_terminates.2.2 [] [] 5 (by simp) (by simp)⟩

/-! ## Shape and ranges of the repaired analysis -/

theorem coercePanelCount_cases (pc : Option ℚ) :
    coercePanelCount pc = 3 ∨ coercePanelCount pc = 5 ∨
      coercePanelCount pc = 10 := by
  simp only [coercePanelCount]
  split_ifs <;> simp

theorem clampRawPanel_range (p : RawPanel) :
    3 ≤ (clampRawPanel p).width ∧ (clampRawPanel p).width ≤ 20 ∧
    5 ≤ (clampRawPanel p).height ∧ (clampRawPanel p).height ≤ 30 ∧
    5 ≤ (clampRawPanel p).x ∧ (clampRawPanel p).x ≤ 95 ∧
    5 ≤ (clampRawPanel p).y ∧ (clampRawPanel p).y ≤ 95 := by
  unfold clampRawPanel jclamp
  dsimp only
  exact ⟨le_max_left _ _, max_le (by norm_num) (min_le_left _ _),
    le_max_left _ _, max_le (by norm_num) (min_le_left _ _),
    le_max_left _ _, max_le (by norm_num) (min_le_left _ _),
    le_max_left _ _, max_le (by norm_num) (min_le_left _ _)⟩

theorem defaultPanels_range (c : ℕ) :
    ∀ p ∈ (createDefaultLayout c).panels,
      3 ≤ p.width ∧ p.width ≤ 20 ∧ 5 ≤ p.height ∧ p.height ≤ 30 ∧
      5 ≤ p.x ∧ p.x ≤ 95 ∧ 5 ≤ p.y ∧ p.y ≤ 95 := by
  unfold createDefaultLayout
  dsimp only
  split_ifs <;> (intro p hp; fin_cases hp <;> norm_num)

theorem normalize_shape (raw : Option RawAnalysis) (a : LayoutAnalysis)
    (hn : normalizeAnalysis raw = some a) :
    (a.panelCount = 3 ∨ a.panelCount = 5 ∨ a.panelCount = 10) ∧
    a.panels.length = a.panelCount ∧
    ∀ p ∈ a.panels,
      3 ≤ p.width ∧ p.width ≤ 20 ∧ 5 ≤ p.height ∧ p.height ≤ 30 ∧
      5 ≤ p.x ∧ p.x ≤ 95 ∧ 5 ≤ p.y ∧ p.y ≤ 95 := by
  cases raw with
  | none =>
    simp only [normalizeAnalysis, Option.some.injEq] at hn
    subst hn
    refine ⟨.inr (.inl rfl), ?_, defaultPanels_range 5⟩
    simpa using createDefaultLayout_length 5 (.inr (.inl rfl))
  | some r =>
    simp only [normalizeAnalysis] at hn
    rw [Option.map_eq_some'] at hn
    obtain ⟨panels, hfill, rfl⟩ := hn
    dsimp only
    refine ⟨coercePanelCount_cases r.panelCount, ?_⟩
    have hdlen : (createDefaultLayout (coercePanelCount r.panelCount)).panels.length =
        coercePanelCount r.panelCount :=
      createDefaultLayout_length _ (coercePanelCount_cases r.panelCount)
    split_ifs at hfill with h1 h2
    · obtain rfl : List.take (coercePanelCount r.panelCount)
          ((r.panels.getD []).map clampRawPanel) = panels := by
        simpa using hfill
      constructor
      · simp at h1 ⊢
        omega
      · intro p hp
        obtain ⟨q, _, rfl⟩ :=
          List.mem_map.1 (List.take_subset _ _ hp)
        exact clampRawPanel_range q
    · obtain ⟨res, heq, hlen⟩ :=
        fillLoop_total ((r.panels.getD []).map clampRawPanel)
          (coercePanelCount r.panelCount)
          (createDefaultLayout (coercePanelCount r.panelCount)).panels
          (le_of_lt h2) hdlen.ge
      rw [hfill] at heq
      obtain rfl : panels = res := by simpa using heq
      refine ⟨hlen, ?_⟩
      intro p hp
      rcases fillLoop_mem _ _ _ _ hfill p hp with hmem | hmem
      · obtain ⟨q, _, rfl⟩ := List.mem_map.1 hmem
        exact clampRawPanel_range q
      · exact defaultPanels_range _ p hmem
    · obtain rfl : (r.panels.getD []).map clampRawPanel = panels := by
        simpa using hfill
      constructor
      · simp at h1 h2 ⊢
        omega
      · intro p hp
        obtain ⟨q, _, rfl⟩ := List.mem_map.1 hp
        exact clampRawPanel_range q

/-- The effective wall bounds are sane: inside the image and at least as
large as any repaired panel. -/
def wellFormedBounds (wb : RawBounds) : Prop :=
  0 ≤ wb.x ∧ 0 ≤ wb.y ∧ wb.x + wb.width ≤ 100 ∧ wb.y + wb.height ≤ 100 ∧
  10 ≤ wb.width ∧ 15 ≤ wb.height

theorem validatePanels_range (a : LayoutAnalysis)
    (hlen : a.panels.length = a.panelCount)
    (hranges : ∀ p ∈ a.panels,
      3 ≤ p.width ∧ p.width ≤ 20 ∧ 5 ≤ p.height ∧ p.height ≤ 30 ∧
      5 ≤ p.x ∧ p.x ≤ 95 ∧ 5 ≤ p.y ∧ p.y ≤ 95) :
    (validatePanels a).length = a.panelCount ∧
    (∀ p ∈ validatePanels a,
      0 < p.width ∧ p.width ≤ 100 ∧ 0 < p.height ∧ p.height ≤ 100) ∧
    (wellFormedBounds (a.wallBounds.getD ⟨10, 10, 80, 80⟩) →
      ∀ p ∈ validatePanels a,
        0 ≤ p.x ∧ p.x ≤ 100 ∧ 0 ≤ p.y ∧ p.y ≤ 100) := by
  unfold validatePanels
  rw [if_neg (by simp; omega)]
  refine ⟨by simpa using hlen, ?_, ?_⟩
  · intro p hp
    obtain ⟨q, hq, rfl⟩ := List.mem_map.1 hp
    obtain ⟨h1, h2, h3, h4, h5, h6, h7, h8⟩ := hranges q hq
    dsimp only
    exact ⟨by linarith, by linarith, by linarith, by linarith⟩
  · intro hwb p hp
    obtain ⟨w1, w2, w3, w4, w5, w6⟩ := hwb
    obtain ⟨q, hq, rfl⟩ := List.mem_map.1 hp
    obtain ⟨h1, h2, h3, h4, h5, h6, h7, h8⟩ := hranges q hq
    dsimp only
    refine ⟨?_, ?_, ?_, ?_⟩
    · exact le_trans (by linarith) (le_max_left _ _)
    · exact max_le (by linarith) (le_trans (min_le_left _ _) (by linarith))
    · exact le_trans (by linarith) (le_max_left _ _)
    · exact max_le (by linarith) (le_trans (min_le_left _ _) (by linarith))

/-- Claim C7 (amended): the layout handed to the compositor always has
exactly `panelCount` entries — `panelCount` being the coerced set count 3,
5 or 10, the `totalPanelCount` of the selected PANEL_SETS entry — and every
entry always keeps positive width and height within `(0, 100]`;
additionally, whenever the externally supplied wall bounds are themselves
inside the image and at least panel-sized (`wellFormedBounds`), every
entry's centre coordinates also lie within `[0, 100]` after the wall-bounds
clamp. Without that proviso the coordinate part fails: see the
counterexample. -/
theorem layout_count_and_range (raw : Option RawAnalysis) (a : LayoutAnalysis)
    (hn : normalizeAnalysis raw = some a) :
    (validatePanels a).length = a.panelCount ∧
    (a.panelCount = 3 ∨ a.panelCount = 5 ∨ a.panelCount = 10) ∧
    panelSetCount (panelSetKey a.panelCount) = a.panelCount ∧
    (∀ p ∈ validatePanels a,
      0 < p.width ∧ p.width ≤ 100 ∧ 0 < p.height ∧ p.height ≤ 100) ∧
    (wellFormedBounds (a.wallBounds.getD ⟨10, 10, 80, 80⟩) →
      ∀ p ∈ validatePanels a,
        0 ≤ p.x ∧ p.x ≤ 100 ∧ 0 ≤ p.y ∧ p.y ≤ 100) := by
  obtain ⟨hc, hlen, hr⟩ := normalize_shape raw a hn
  obtain ⟨hvl, hvs, hvxy⟩ := validatePanels_range a hlen hr
  refine ⟨hvl, hc, ?_, hvs, hvxy⟩
  rcases hc with h | h | h <;> rw [h] <;> rfl

/-- A raw analysis whose `wallBounds` lies outside the image; the parse
block accepts it unchanged. -/
def rawOutOfRangeBounds : RawAnalysis :=
  { panelCount := some 3
    wallBounds := some ⟨200, 10, 80, 80⟩
    panels := some [⟨some 50, some 50, some 10, some 20⟩,
      ⟨some 30, some 40, some 10, some 20⟩,
      ⟨some 70, some 60, some 10, some 20⟩]
    lightingDirection := none }

/-- The repaired analysis the parse block produces for
`rawOutOfRangeBounds`. -/
def analysisOutOfRange : LayoutAnalysis :=
  { panelCount := 3
    wallBounds := some ⟨200, 10, 80, 80⟩
    panels := [⟨50, 50, 10, 20⟩, ⟨30, 40, 10, 20⟩, ⟨70, 60, 10, 20⟩]
    lightingDirection := none }

/-- Counterexample to claim C7 as stated: clamping panels against the
unvalidated, externally supplied wall bounds can push a panel centre above
100 (here to 205), so the produced layout is not within `[0, 100]`. -/
theorem layout_range_counterexample :
    normalizeAnalysis (some rawOutOfRangeBounds) = some analysisOutOfRange ∧
    ∃ p ∈ validatePanels analysisOutOfRange, 100 < p.x := by
  constructor
  · norm_num [normalizeAnalysis, rawOutOfRangeBounds, analysisOutOfRange,
      coercePanelCount, numOr, clampRawPanel, jclamp, max_def, min_def]
  · refine ⟨⟨205, 50, 10, 20⟩, ?_, by norm_num⟩
    norm_num [validatePanels, analysisOutOfRange, max_def, min_def]

/-- The same raw analysis with well-formed wall bounds. -/
def rawInRangeBounds : RawAnalysis :=
  { panelCount := some 3
    wallBounds := some ⟨10, 10, 80, 80⟩
    panels := some [⟨some 50, some 50, some 10, some 20⟩,
      ⟨some 30, some 40, some 10, some 20⟩,
      ⟨some 70, some 60, some 10, some 20⟩]
    lightingDirection := none }

/-- Its repaired analysis. -/
def analysisInRange : LayoutAnalysis :=
  { panelCount := 3
    wallBounds := some ⟨10, 10, 80, 80⟩
    panels := [⟨50, 50, 10, 20⟩, ⟨30, 40, 10, 20⟩, ⟨70, 60, 10, 20⟩]
    lightingDirection := none }

theorem layout_count_and_range_witness :
    (validatePanels analysisInRange).length = analysisInRange.panelCount ∧
    (analysisInRange.panelCount = 3 ∨ analysisInRange.panelCount = 5 ∨
      analysisInRange.panelCount = 10) ∧
    panelSetCount (panelSetKey analysisInRange.panelCount) =
      analysisInRange.panelCount ∧
    (∀ p ∈ validatePanels analysisInRange,
      0 < p.width ∧ p.width ≤ 100 ∧ 0 < p.height ∧ p.height ≤ 100) ∧
    ∀ p ∈ validatePanels analysisInRange,
      0 ≤ p.x ∧ p.x ≤ 100 ∧ 0 ≤ p.y ∧ p.y ≤ 100 := by
  have h := layout_count_and_range (some rawInRangeBounds) analysisInRange
    (by norm_num [normalizeAnalysis, rawInRangeBounds, analysisInRange,
      coercePanelCount, numOr, clampRawPanel, jclamp, max_def, min_def])
  exact ⟨h.1, h.2.1, h.2.2.1, h.2.2.2.1,
    h.2.2.2.2 (by norm_num [wellFormedBounds, analysisInRange])⟩

/-! ## The orchestrator -/

theorem normalizeAnalysis_ne_none (raw : Option RawAnalysis) :
    ∃ a, normalizeAnalysis raw = some a := by
  cases raw with
  | none => exact ⟨_, rfl⟩
  | some r =>
    simp only [normalizeAnalysis]
    have hdlen := createDefaultLayout_length _ (coercePanelCount_cases r.panelCount)
    split_ifs with h1 h2
    · exact ⟨_, rfl⟩
    · obtain ⟨res, heq, _⟩ :=
        fillLoop_total ((r.panels.getD []).map clampRawPanel)
          (coercePanelCount r.panelCount)
          (createDefaultLayout (coercePanelCount r.panelCount)).panels
          (le_of_lt h2) hdlen.ge
      rw [heq]
      exact ⟨_, rfl⟩
    · exact ⟨_, rfl⟩

theorem processDesign_cases (env : Env) :
    (∃ img, processDesign env =
      some [⟨Status.processing, none⟩, ⟨Status.completed, some img⟩]) ∨
    processDesign env =
      some [⟨Status.processing, none⟩, ⟨Status.failed, none⟩] := by
  unfold processDesign runPipeline
  cases hd : env.decode with
  | error e => right; rfl
  | ok base =>
    cases hv : env.vision with
    | error e => right; rfl
    | ok raw =>
      dsimp only
      obtain ⟨a, ha⟩ := normalizeAnalysis_ne_none raw
      rw [ha]
      dsimp only
      cases hc : compositeStage (validatePanels a)
          (a.lightingDirection.getD .above) env.origWidth env.origHeight base with
      | error e => right; rfl
      | ok img => exact .inl ⟨img, rfl⟩

/-- Claim C4: every job's status trace is the two-step state machine —
`processing` is written exactly once at the start, then exactly one
terminal write follows: `completed` carrying the composited image on
success, or `failed` carrying no image when any pipeline step throws —
and nothing is written after the terminal status. -/
theorem status_state_machine (env : Env) :
    (∃ img, processDesign env =
      some [⟨Status.processing, none⟩, ⟨Status.completed, some img⟩]) ∨
    processDesign env =
      some [⟨Status.processing, none⟩, ⟨Status.failed, none⟩] :=
  processDesign_cases env

/-- Claim C9: the fire-and-forget `processDesign` task never lets an
exception escape — for every environment, including every failing pipeline
step, it runs to completion (no unhandled rejection) and leaves the job in
a terminal status, `completed` or `failed`. -/
theorem no_unhandled_rejection (env : Env) :
    ∃ tr, processDesign env = some tr ∧
      tr.head? = some ⟨Status.processing, none⟩ ∧
      ∃ last, tr.getLast? = some last ∧
        (last.status = Status.completed ∨ last.status = Status.failed) := by
  rcases processDesign_cases env with ⟨img, h⟩ | h
  · exact ⟨_, h, rfl, ⟨Status.completed, some img⟩, rfl, .inl rfl⟩
  · exact ⟨_, h, rfl, ⟨Status.failed, none⟩, rfl, .inr rfl⟩

/-- The all-white base image. -/
def whiteImage : Image := fun _ _ => ⟨255, 255, 255, 255⟩

/-- A vision reply whose JSON parses, with three in-range panels, but whose
numeric `wallBounds` sits far outside the image; nothing in the parse block
clamps it. -/
def rawFarBounds : RawAnalysis :=
  { panelCount := some 3
    wallBounds := some ⟨1000, 10, 80, 80⟩
    panels := some [⟨some 50, some 50, some 10, some 20⟩,
      ⟨some 30, some 40, some 10, some 20⟩,
      ⟨some 70, some 60, some 10, some 20⟩]
    lightingDirection := none }

/-- A job whose image decodes to a 1000 x 1000 white picture and whose
vision call returns `rawFarBounds`. -/
def envFarBounds : Env :=
  { origWidth := 1000
    origHeight := 1000
    decode := .ok whiteImage
    vision := .ok (some rawFarBounds) }

/-- Claim C3 (code bug): the parser tolerance is incomplete. On
`envFarBounds` the parse block accepts the out-of-range `wallBounds`
untouched, the wall-bounds clamp pushes every panel centre to x = 1005,
pixel clamping then shrinks every panel below the 10 px minimum, zero
overlays survive, the compositor throws, and the job ends `failed` —
the pipeline does not degrade to defaults and produce an image. -/
theorem parse_tolerance_failure :
    (processDesign envFarBounds).map (List.map Write.status) =
      some [Status.processing, Status.failed] := by
  norm_num [processDesign, runPipeline, envFarBounds, rawFarBounds,
    normalizeAnalysis, coercePanelCount, numOr, clampRawPanel, jclamp,
    validatePanels, compositeStage, buildOverlays, overlaysForPanel,
    panelPixelRect, pixelRectOf, clampRectToImage, jround,
    max_def, min_def]

/-! ## The compositor -/

theorem panelPixelRect_bounds (p : PanelPosition) (W H : ℤ) :
    0 ≤ (panelPixelRect p W H).x ∧ 0 ≤ (panelPixelRect p W H).y ∧
    (panelPixelRect p W H).x + (panelPixelRect p W H).w ≤ W ∧
    (panelPixelRect p W H).y + (panelPixelRect p W H).h ≤ H := by
  unfold panelPixelRect
  exact clampRect_bounds _ _ _

theorem shadowPixelRect_bounds (p : PanelPosition) (dir : Lighting) (W H : ℤ) :
    0 ≤ (shadowPixelRect p dir W H).x ∧ 0 ≤ (shadowPixelRect p dir W H).y ∧
    (shadowPixelRect p dir W H).x + (shadowPixelRect p dir W H).w ≤ W ∧
    (shadowPixelRect p dir W H).y + (shadowPixelRect p dir W H).h ≤ H := by
  unfold shadowPixelRect
  dsimp only
  exact clampRect_bounds _ _ _

theorem overlaysForPanel_nil_iff (i : ℕ) (p : PanelPosition) (dir : Lighting)
    (W H : ℤ) :
    overlaysForPanel i p dir W H = [] ↔ ¬ survivesClamp p W H := by
  unfold overlaysForPanel survivesClamp
  dsimp only
  by_cases h : (panelPixelRect p W H).w < 10 ∨ (panelPixelRect p W H).h < 10
  · simp [h]
  · simp [h]

theorem overlaysForPanel_rects (i : ℕ) (p : PanelPosition) (dir : Lighting)
    (W H : ℤ) (o : Overlay) (ho : o ∈ overlaysForPanel i p dir W H) :
    (⟨o.left, o.top, o.width, o.height⟩ : IRect) = panelPixelRect p W H ∨
    (⟨o.left, o.top, o.width, o.height⟩ : IRect) = shadowPixelRect p dir W H := by
  unfold overlaysForPanel at ho
  dsimp only at ho
  split_ifs at ho with h1 h2
  · simp at ho
  · simp only [List.cons_append, List.nil_append, List.mem_cons,
      List.not_mem_nil, or_false] at ho
    rcases ho with rfl | rfl
    · right; rfl
    · left; rfl
  · simp only [List.nil_append, List.mem_singleton] at ho
    subst ho
    left; rfl

theorem survives_of_mem_overlays (i : ℕ) (p : PanelPosition) (dir : Lighting)
    (W H : ℤ) (o : Overlay) (ho : o ∈ overlaysForPanel i p dir W H) :
    survivesClamp p W H := by
  unfold overlaysForPanel at ho
  dsimp only at ho
  by_cases h : (panelPixelRect p W H).w < 10 ∨ (panelPixelRect p W H).h < 10
  · rw [if_pos h] at ho
    simp at ho
  · unfold survivesClamp
    exact h

theorem overlay_inBounds_of_mem (i : ℕ) (p : PanelPosition) (dir : Lighting)
    (W H : ℤ) (o : Overlay) (ho : o ∈ overlaysForPanel i p dir W H) :
    overlayInBounds o W H = true := by
  unfold overlayInBounds
  simp only [decide_eq_true_eq]
  rcases overlaysForPanel_rects i p dir W H o ho with h | h
  · have hx : o.left = (panelPixelRect p W H).x := by
      simpa using congrArg IRect.x h
    have hy : o.top = (panelPixelRect p W H).y := by
      simpa using congrArg IRect.y h
    have hw : o.width = (panelPixelRect p W H).w := by
      simpa using congrArg IRect.w h
    have hh : o.height = (panelPixelRect p W H).h := by
      simpa using congrArg IRect.h h
    rw [hx, hy, hw, hh]
    obtain ⟨b1, b2, b3, b4⟩ := panelPixelRect_bounds p W H
    exact ⟨b1, b3, b2, b4⟩
  · have hx : o.left = (shadowPixelRect p dir W H).x := by
      simpa using congrArg IRect.x h
    have hy : o.top = (shadowPixelRect p dir W H).y := by
      simpa using congrArg IRect.y h
    have hw : o.width = (shadowPixelRect p dir W H).w := by
      simpa using congrArg IRect.w h
    have hh : o.height = (shadowPixelRect p dir W H).h := by
      simpa using congrArg IRect.h h
    rw [hx, hy, hw, hh]
    obtain ⟨b1, b2, b3, b4⟩ := shadowPixelRect_bounds p dir W H
    exact ⟨b1, b3, b2, b4⟩

theorem buildOverlays_mem (dir : Lighting) (W H : ℤ) :
    ∀ (panels : List PanelPosition) (i : ℕ) (o : Overlay),
      o ∈ buildOverlays dir W H i panels →
      ∃ j p, p ∈ panels ∧ o ∈ overlaysForPanel j p dir W H := by
  intro panels
  induction panels with
  | nil => intro i o ho; simp [buildOverlays] at ho
  | cons p ps ih =>
    intro i o ho
    rw [buildOverlays] at ho
    rcases List.mem_append.1 ho with h | h
    · exact ⟨i, p, List.mem_cons_self p ps, h⟩
    · obtain ⟨j, q, hq, hoq⟩ := ih (i + 1) o h
      exact ⟨j, q, List.mem_cons_of_mem p hq, hoq⟩

theorem buildOverlays_nil_iff (dir : Lighting) (W H : ℤ) :
    ∀ (panels : List PanelPosition) (i : ℕ),
      buildOverlays dir W H i panels = [] ↔
        ∀ p ∈ panels, ¬ survivesClamp p W H := by
  intro panels
  induction panels with
  | nil => intro i; simp [buildOverlays]
  | cons p ps ih =>
    intro i
    rw [buildOverlays]
    simp [List.append_eq_nil, overlaysForPanel_nil_iff, ih (i + 1)]

theorem buildOverlays_all_inBounds (dir : Lighting) (W H : ℤ)
    (panels : List PanelPosition) (i : ℕ) :
    (buildOverlays dir W H i panels).all (overlayInBounds · W H) = true := by
  rw [List.all_eq_true]
  intro o ho
  obtain ⟨j, p, _, hop⟩ := buildOverlays_mem dir W H panels i o ho
  exact overlay_inBounds_of_mem j p dir W H o hop

/-- Claim C6: a panel falling below the 10 px minimum after clamping is
skipped without error and the remaining panels still render, but when no
panel at all survives, the zero-overlay guard throws and the job fails
instead of silently returning the untouched base image: the compositing
stage yields an output image exactly when at least one panel survives. -/
theorem compositeStage_ok_iff (panels : List PanelPosition) (dir : Lighting)
    (W H : ℤ) (base : Image) :
    (∃ img, compositeStage panels dir W H base = .ok img) ↔
      ∃ p ∈ panels, survivesClamp p W H := by
  unfold compositeStage
  dsimp only
  by_cases he : buildOverlays dir W H 0 panels = []
  · rw [he]
    constructor
    · rintro ⟨img, h⟩
      simp at h
    · rintro ⟨p, hp, hs⟩
      exact absurd hs ((buildOverlays_nil_iff dir W H panels 0).1 he p hp)
  · rw [if_neg (by simpa [List.isEmpty_iff] using he)]
    unfold compositeImage
    rw [if_pos (buildOverlays_all_inBounds dir W H panels 0)]
    constructor
    · intro _
      by_contra hno
      push_neg at hno
      exact he ((buildOverlays_nil_iff dir W H panels 0).2 hno)
    · intro _
      exact ⟨_, rfl⟩

theorem foldl_no_hit (x y : ℤ) :
    ∀ (ovs : List Overlay) (c : RGBA),
      (∀ o ∈ ovs, inOverlay o x y = false) →
      ovs.foldl (fun c o => if inOverlay o x y then blendOver c o.color else c)
        c = c := by
  intro ovs
  induction ovs with
  | nil => intro c _; rfl
  | cons o os ih =>
    intro c hmiss
    rw [List.foldl_cons, if_neg (by simp [hmiss o (List.mem_cons_self o os)])]
    exact ih c fun o' ho' => hmiss o' (List.mem_cons_of_mem o ho')

/-- Claim C8 (amended): the compositor modifies only pixels inside the
union of the surviving panels' rectangles and their drop-shadow
rectangles; every pixel outside every surviving panel's rectangle AND
shadow rectangle equals the corresponding base-image pixel exactly.
(As stated — with the shadow and highlight layers claimed to stay inside
the panel rectangles — the claim fails, because the shadow is offset and
enlarged beyond the panel: see the counterexample.) -/
theorem composite_frame_effect (panels : List PanelPosition) (dir : Lighting)
    (W H : ℤ) (base : Image) (g : Image) (x y : ℤ)
    (hok : compositeStage panels dir W H base = .ok g)
    (hout : ∀ p ∈ panels, survivesClamp p W H →
      rectContains (panelPixelRect p W H) x y = false ∧
      rectContains (shadowPixelRect p dir W H) x y = false) :
    g x y = base x y := by
  have hmiss : ∀ o ∈ buildOverlays dir W H 0 panels, inOverlay o x y = false := by
    intro o ho
    obtain ⟨j, p, hp, hop⟩ := buildOverlays_mem dir W H panels 0 o ho
    have hs := survives_of_mem_overlays j p dir W H o hop
    unfold inOverlay
    rcases overlaysForPanel_rects j p dir W H o hop with hr | hr
    · rw [hr]; exact (hout p hp hs).1
    · rw [hr]; exact (hout p hp hs).2
  unfold compositeStage at hok
  dsimp only at hok
  split_ifs at hok with h1
  unfold compositeImage at hok
  split_ifs at hok with h2
  injection hok with hok
  subst hok
  exact foldl_no_hit x y (buildOverlays dir W H 0 panels) (base x y) hmiss

/-- One 20% x 30% panel centred on a 1000 x 1000 image. -/
def panelsShadowDemo : List PanelPosition := [⟨50, 50, 20, 30⟩]

/-- Counterexample to claim C8 as stated: pixel (500, 660) of the white
1000 x 1000 base lies outside the only panel's clamped rectangle
([400,600) x [350,650)), yet the output pixel is darkened to 195 by the
drop shadow, whose rectangle ([400,606) x [358,664)) extends beyond the
panel. -/
theorem shadow_escapes_panel_counterexample :
    (∀ p ∈ panelsShadowDemo,
      rectContains (panelPixelRect p 1000 1000) 500 660 = false) ∧
    (compositeStage panelsShadowDemo .above 1000 1000 whiteImage).map
      (fun f => f 500 660) = .ok ⟨195, 195, 195, 255⟩ ∧
    (⟨195, 195, 195, 255⟩ : RGBA) ≠ whiteImage 500 660 := by
  refine ⟨?_, ?_, ?_⟩
  · norm_num [panelsShadowDemo, panelPixelRect, pixelRectOf, clampRectToImage,
      jround, rectContains]
  · norm_num [compositeStage, panelsShadowDemo, buildOverlays, overlaysForPanel,
      panelPixelRect, pixelRectOf, clampRectToImage, shadowPixelRect,
      shadowOffset, jround, compositeImage, overlayInBounds, inOverlay,
      rectContains, blendOver, shadowColor, panelColor, whiteImage,
      Except.map, max_def, min_def]
  · norm_num [whiteImage, RGBA.mk.injEq]

theorem composite_frame_effect_witness :
    ∃ g, compositeStage panelsShadowDemo .above 1000 1000 whiteImage = .ok g ∧
      g 0 0 = whiteImage 0 0 := by
  cases hok : compositeStage panelsShadowDemo .above 1000 1000 whiteImage with
  | error e =>
    exfalso
    have hne : compositeStage panelsShadowDemo .above 1000 1000 whiteImage ≠
        .error e := by
      norm_num [compositeStage, panelsShadowDemo, buildOverlays,
        overlaysForPanel, panelPixelRect, pixelRectOf, clampRectToImage,
        shadowPixelRect, shadowOffset, jround, compositeImage, overlayInBounds,
        max_def, min_def]
      exact fun hEq => Except.noConfusion hEq
    exact hne hok
  | ok g =>
    refine ⟨g, rfl,
      composite_frame_effect panelsShadowDemo .above 1000 1000 whiteImage g
        0 0 hok ?_⟩
    norm_num [panelsShadowDemo, panelPixelRect, pixelRectOf, clampRectToImage,
      shadowPixelRect, shadowOffset, jround, rectContains, max_def, min_def]

end NSP
